import Mathlib

/-!
Verification of the ClarityStatus status-page backend handlers.

The relational store is modelled as lists of rows (one list per table), and
every handler is a pure function from a database value (plus the
request-processing instant, `now`) to the new database value and an outcome.
Timestamps are integers; serial ids are drawn from a single `nextId` counter
(ids are opaque unique integers in the source schema, so a shared counter
preserves their only relevant property, uniqueness).  A TypeScript `throw`
inside a drizzle transaction rolls the transaction back, so a handler that the
source wraps in `db.transaction` returns the original database on error; the
handlers that the source runs as a sequence of auto-committed statements keep
the rows already written when a later statement throws.  Database-enforced
constraints that can make an insert statement throw are modelled where the
handlers depend on them: foreign keys on join-table component ids and the
composite primary keys of the join tables.
-/

namespace ClarityStatus

/-- Outcome of a handler call: the resolved value, or the thrown error message. -/
inductive Outcome (α : Type) where
  | ok : α → Outcome α
  | error : String → Outcome α
deriving DecidableEq, Repr

/-- True when the outcome is `ok`. -/
def Outcome.isOk {α : Type} : Outcome α → Bool
  | .ok _ => true
  | .error _ => false

/-- `pat` is a prefix of the second list. -/
def isPrefixB : List Char → List Char → Bool
  | [], _ => true
  | _ :: _, [] => false
  | a :: l, b :: m => a == b && isPrefixB l m

/-- `pat` occurs as a contiguous sublist. Used to state what an audit message mentions. -/
def isInfixB (pat : List Char) : List Char → Bool
  | [] => isPrefixB pat []
  | b :: m => isPrefixB pat (b :: m) || isInfixB pat m

/-- Stable insertion for `sortLe` (models a SQL ORDER BY). -/
def insertLe {α : Type} (le : α → α → Bool) (a : α) : List α → List α
  | [] => [a]
  | b :: l => if le a b then a :: b :: l else b :: insertLe le a l

/-- Insertion sort by a boolean comparison (models a SQL ORDER BY). -/
def sortLe {α : Type} (le : α → α → Bool) : List α → List α
  | [] => []
  | a :: l => insertLe le a (sortLe le l)

theorem mem_insertLe {α : Type} (le : α → α → Bool) (a x : α) (l : List α) :
    x ∈ insertLe le a l ↔ x = a ∨ x ∈ l := by
  induction l with
  | nil => simp [insertLe]
  | cons b l ih =>
      show x ∈ (if le a b then a :: b :: l else b :: insertLe le a l) ↔ _
      by_cases h : le a b = true
      · rw [if_pos h]
        simp [List.mem_cons]
      · rw [if_neg h]
        simp only [List.mem_cons, ih]
        tauto

theorem mem_sortLe {α : Type} (le : α → α → Bool) (x : α) (l : List α) :
    x ∈ sortLe le l ↔ x ∈ l := by
  induction l with
  | nil => simp [sortLe]
  | cons a l ih => simp [sortLe, mem_insertLe, ih]

/-- Whether a list of ids contains a repeated element (a composite-primary-key
violation when the list is inserted as join rows for one fresh parent). -/
def hasDup : List Nat → Bool
  | [] => false
  | a :: l => l.contains a || hasDup l

/-- SQL `max()` over a column: `none` on an empty table. -/
def maxOrder : List Int → Option Int
  | [] => none
  | a :: l =>
      match maxOrder l with
      | none => some a
      | some m => some (max a m)

inductive ComponentStatus where
  | operational
  | degraded
  | partial_outage
  | major_outage
  | under_maintenance
deriving DecidableEq, Repr

/-- The severity table of `getOverallStatus` (higher = more severe). -/
def statusPriority : ComponentStatus → Nat
  | .operational => 0
  | .under_maintenance => 1
  | .degraded => 2
  | .partial_outage => 3
  | .major_outage => 4

/-- The database enum literal of a component status. -/
def componentStatusString : ComponentStatus → String
  | .operational => "operational"
  | .degraded => "degraded"
  | .partial_outage => "partial_outage"
  | .major_outage => "major_outage"
  | .under_maintenance => "under_maintenance"

inductive IncidentStatus where
  | investigating
  | identified
  | monitoring
  | resolved
deriving DecidableEq, Repr

inductive IncidentImpact where
  | none
  | minor
  | major
  | critical
deriving DecidableEq, Repr

inductive MaintenanceStatus where
  | scheduled
  | in_progress
  | completed
deriving DecidableEq, Repr

structure ComponentGroup where
  id : Nat
  name : String
  display_order : Int
  collapsed_by_default : Bool
  created_at : Int
  updated_at : Int
deriving DecidableEq, Repr

structure Component where
  id : Nat
  name : String
  status : ComponentStatus
  display_order : Int
  group_id : Nat
  created_at : Int
  updated_at : Int
deriving DecidableEq, Repr

structure Incident where
  id : Nat
  title : String
  created_at : Int
  resolved_at : Option Int
  status : IncidentStatus
  impact : IncidentImpact
  impact_description : Option String
  root_cause : Option String
  updated_at : Int
deriving DecidableEq, Repr

structure IncidentUpdate where
  id : Nat
  message : String
  status : IncidentStatus
  timestamp : Int
  incident_id : Nat
  created_at : Int
  updated_at : Int
deriving DecidableEq, Repr

structure IncidentAffectedComponent where
  incident_id : Nat
  component_id : Nat
deriving DecidableEq, Repr

structure MaintenanceWindow where
  id : Nat
  title : String
  description : Option String
  start_time : Int
  end_time : Int
  status : MaintenanceStatus
  created_at : Int
  updated_at : Int
deriving DecidableEq, Repr

structure MaintenanceUpdate where
  id : Nat
  message : String
  timestamp : Int
  maintenance_id : Nat
  created_at : Int
  updated_at : Int
deriving DecidableEq, Repr

structure MaintenanceAffectedComponent where
  maintenance_id : Nat
  component_id : Nat
deriving DecidableEq, Repr

structure Automation where
  id : Nat
  name : String
  new_status : ComponentStatus
  created_at : Int
  updated_at : Int
deriving DecidableEq, Repr

structure AutomationComponent where
  automation_id : Nat
  component_id : Nat
deriving DecidableEq, Repr

structure AuditLog where
  id : Nat
  timestamp : Int
  username : String
  action : String
  details : Option String
  created_at : Int
deriving DecidableEq, Repr

structure SiteSetting where
  id : Nat
  key : String
  value : Option String
  created_at : Int
  updated_at : Int
deriving DecidableEq, Repr

/-- The relational store: one list of rows per table of the schema, plus the
serial-id counter. -/
structure DB where
  componentGroups : List ComponentGroup
  components : List Component
  incidents : List Incident
  incidentUpdates : List IncidentUpdate
  incidentAffected : List IncidentAffectedComponent
  maintenanceWindows : List MaintenanceWindow
  maintenanceUpdates : List MaintenanceUpdate
  maintenanceAffected : List MaintenanceAffectedComponent
  automations : List Automation
  automationComponents : List AutomationComponent
  auditLogs : List AuditLog
  siteSettings : List SiteSetting
  nextId : Nat
deriving DecidableEq, Repr

/-- A freshly created, empty store. -/
def DB.empty : DB :=
  { componentGroups := []
    components := []
    incidents := []
    incidentUpdates := []
    incidentAffected := []
    maintenanceWindows := []
    maintenanceUpdates := []
    maintenanceAffected := []
    automations := []
    automationComponents := []
    auditLogs := []
    siteSettings := []
    nextId := 1 }

/-- Insert an audit-log row (the handlers always log as the fixed placeholder
user "system"). -/
def insertAudit (db : DB) (now : Int) (action details : String) : DB :=
  { db with
    auditLogs := db.auditLogs ++
      [{ id := db.nextId, timestamp := now, username := "system",
         action := action, details := some details, created_at := now }]
    nextId := db.nextId + 1 }

/-- A component row with this id exists (the foreign-key test). -/
def componentExists (db : DB) (i : Nat) : Bool :=
  db.components.any (fun c => c.id == i)

/-- A component group together with its components, as the grouped read-model
rows (`ComponentGroupWithComponents` in the source). -/
structure GroupWithComponents where
  id : Nat
  name : String
  display_order : Int
  collapsed_by_default : Bool
  created_at : Int
  updated_at : Int
  components : List Component
deriving DecidableEq, Repr

/-- Spread a group row into the composite read-model record. -/
def mkGroupWith (g : ComponentGroup) (cs : List Component) : GroupWithComponents :=
  { id := g.id, name := g.name, display_order := g.display_order,
    collapsed_by_default := g.collapsed_by_default,
    created_at := g.created_at, updated_at := g.updated_at, components := cs }

/-- Input of `createComponentGroup` (`display_order` and the flag per the zod
schema; an omitted `display_order` is `none`). -/
structure CreateComponentGroupInput where
  name : String
  display_order : Option Int
  collapsed_by_default : Bool
deriving DecidableEq, Repr

/-- `createComponentGroup` of the components handler: auto-assigns
`(max display_order over all groups ?? -1) + 1` when none is given, inserts
the group and returns it with an empty components list. -/
def createComponentGroup (db : DB) (input : CreateComponentGroupInput) (now : Int) :
    DB × GroupWithComponents :=
  let displayOrder :=
    match input.display_order with
    | some d => d
    | none => (maxOrder (db.componentGroups.map (fun g => g.display_order))).getD (-1) + 1
  let g : ComponentGroup :=
    { id := db.nextId, name := input.name, display_order := displayOrder,
      collapsed_by_default := input.collapsed_by_default,
      created_at := now, updated_at := now }
  ({ db with componentGroups := db.componentGroups ++ [g], nextId := db.nextId + 1 },
   mkGroupWith g [])

/-- Comparison of left-join rows by (group display_order, component
display_order), the components handler's ORDER BY; a NULL component sorts
last within its group, as in ascending SQL order. -/
def leftRowLe (a b : ComponentGroup × Option Component) : Bool :=
  a.1.display_order < b.1.display_order ||
    (a.1.display_order == b.1.display_order &&
      (match a.2, b.2 with
       | none, _ => false
       | some _, none => true
       | some c, some d => c.display_order ≤ d.display_order))

/-- The left-join rows a single group contributes: one `(g, none)` row when it
owns no component, else one `(g, some c)` row per component. -/
def groupLeftRows (db : DB) (g : ComponentGroup) : List (ComponentGroup × Option Component) :=
  if (db.components.filter (fun c => c.group_id == g.id)).isEmpty then
    [(g, (none : Option Component))]
  else (db.components.filter (fun c => c.group_id == g.id)).map (fun c => (g, some c))

/-- The rows of `component_groups LEFT JOIN components ON group.id =
component.group_id`, ordered by the handler's ORDER BY. -/
def leftJoinRows (db : DB) : List (ComponentGroup × Option Component) :=
  sortLe leftRowLe ((db.componentGroups.map (groupLeftRows db)).flatten)

/-- The row loop of `getComponentGroups`/`getPublicStatus`: a map keyed by
group id in first-seen order; each non-null component row is appended to its
group's components. -/
def groupRows : List (ComponentGroup × Option Component) → List GroupWithComponents →
    List GroupWithComponents
  | [], acc => acc
  | (g, c) :: rest, acc =>
      if acc.any (fun gw => gw.id == g.id) then
        groupRows rest
          (acc.map (fun gw =>
            if gw.id == g.id then { gw with components := gw.components ++ c.toList }
            else gw))
      else
        groupRows rest (acc ++ [mkGroupWith g c.toList])

/-- `getComponentGroups` of the components handler: left join, ordered, grouped;
a group with no components yields an empty components list. -/
def getComponentGroups (db : DB) : List GroupWithComponents :=
  groupRows (leftJoinRows db) []

/-- `deleteComponentGroup`: conflict while any component references the group,
then delete, and "not found" when the delete touched no row. -/
def deleteComponentGroup (db : DB) (id : Nat) : DB × Outcome Unit :=
  if (db.components.filter (fun c => c.group_id == id)).isEmpty = false then
    (db, .error "Cannot delete component group that contains components")
  else if db.componentGroups.any (fun g => g.id == id) then
    ({ db with componentGroups := db.componentGroups.filter (fun g => g.id != id) }, .ok ())
  else
    (db, .error ("Component group with id " ++ toString id ++ " not found"))

/-- Input of `createComponent` per the zod schema. -/
structure CreateComponentInput where
  name : String
  status : ComponentStatus
  display_order : Option Int
  group_id : Nat
deriving DecidableEq, Repr

/-- `createComponent`: verifies the group, auto-assigns
`(max display_order within the group ?? -1) + 1` when none is given, inserts. -/
def createComponent (db : DB) (input : CreateComponentInput) (now : Int) :
    DB × Outcome Component :=
  if db.componentGroups.any (fun g => g.id == input.group_id) = false then
    (db, .error ("Component group with id " ++ toString input.group_id ++ " not found"))
  else
    let displayOrder :=
      match input.display_order with
      | some d => d
      | none =>
          (maxOrder ((db.components.filter (fun c => c.group_id == input.group_id)).map
            (fun c => c.display_order))).getD (-1) + 1
    let c : Component :=
      { id := db.nextId, name := input.name, status := input.status,
        display_order := displayOrder, group_id := input.group_id,
        created_at := now, updated_at := now }
    ({ db with components := db.components ++ [c], nextId := db.nextId + 1 }, .ok c)

/-- The worst-status accumulation loop of `getOverallStatus`. -/
def worstLoop : List ComponentStatus → Nat → ComponentStatus → ComponentStatus
  | [], _, worst => worst
  | s :: rest, maxSev, worst =>
      if maxSev < statusPriority s then worstLoop rest (statusPriority s) s
      else worstLoop rest maxSev worst

/-- `getOverallStatus` of the components handler: `operational` for an empty
component table, otherwise the first-seen status of maximal priority. -/
def getOverallStatus (db : DB) : ComponentStatus :=
  if db.components.isEmpty then .operational
  else worstLoop (db.components.map (fun c => c.status)) 0 .operational

/-- The rows of the public handler's
`component_groups INNER JOIN components`, ordered by (group display_order,
component display_order). -/
def publicJoinRows (db : DB) : List (ComponentGroup × Component) :=
  sortLe
    (fun a b =>
      a.1.display_order < b.1.display_order ||
        (a.1.display_order == b.1.display_order && a.2.display_order ≤ b.2.display_order))
    ((db.componentGroups.map (fun g =>
        (db.components.filter (fun c => c.group_id == g.id)).map (fun c => (g, c)))).flatten)

/-- The grouped `component_groups` list of `getPublicStatus` (an inner join, so
only groups that own at least one component appear). -/
def publicComponentGroups (db : DB) : List GroupWithComponents :=
  groupRows ((publicJoinRows db).map (fun r => (r.1, some r.2))) []

/-- The inner component loop of `getPublicStatus`'s overall-status scan: an
`else if` chain that only upgrades from `operational`, except that
`major_outage` always wins and breaks the loop. -/
def publicStatusInner : List Component → ComponentStatus → ComponentStatus
  | [], acc => acc
  | c :: rest, acc =>
      if c.status = .major_outage then .major_outage
      else if c.status = .partial_outage ∧ acc = .operational then
        publicStatusInner rest .partial_outage
      else if c.status = .degraded ∧ acc = .operational then
        publicStatusInner rest .degraded
      else if c.status = .under_maintenance ∧ acc = .operational then
        publicStatusInner rest .under_maintenance
      else publicStatusInner rest acc

/-- The outer group loop of `getPublicStatus`'s overall-status scan (breaks once
`major_outage` is reached). -/
def publicStatusOuter : List GroupWithComponents → ComponentStatus → ComponentStatus
  | [], acc => acc
  | g :: rest, acc =>
      let acc2 := publicStatusInner g.components acc
      if acc2 = .major_outage then acc2 else publicStatusOuter rest acc2

/-- The fields of `getPublicStatus`'s result at issue here; the remaining fields
(active/recent incidents, active/upcoming maintenance) are produced by separate
queries that do not feed back into these two. -/
structure PublicStatus where
  overall_status : ComponentStatus
  component_groups : List GroupWithComponents
deriving DecidableEq, Repr

/-- `getPublicStatus` of the public handler: grouped inner-join component
groups and the scanned overall status. -/
def getPublicStatus (db : DB) : PublicStatus :=
  let component_groups := publicComponentGroups db
  { overall_status := publicStatusOuter component_groups .operational
    component_groups := component_groups }

/-- JavaScript `value || null` on a nullable-optional string input: an absent or
null or empty-string value becomes null. -/
def jsOrNull : Option (Option String) → Option String
  | some (some s) => if s = "" then none else some s
  | _ => none

/-- Input of `createIncident` per the zod schema: `impact_description` is
required-nullable, `root_cause` optional-nullable (outer `Option` = provided). -/
structure CreateIncidentInput where
  title : String
  status : IncidentStatus
  impact : IncidentImpact
  impact_description : Option String
  root_cause : Option (Option String)
  affected_component_ids : List Nat
  initial_update_message : String
deriving DecidableEq, Repr

/-- `createIncident`: one transaction inserting the incident, its initial
update, the affected-component join rows and the audit row.  A join-row insert
that violates the component foreign key or the composite primary key (a
duplicated id in the input) throws and rolls the whole transaction back. -/
def createIncident (db : DB) (input : CreateIncidentInput) (now : Int) :
    DB × Outcome Incident :=
  if input.affected_component_ids.any (fun i => componentExists db i = false) then
    (db, .error "insert into incident_affected_components violates foreign key constraint")
  else if hasDup input.affected_component_ids then
    (db, .error "insert into incident_affected_components violates unique constraint")
  else
    let incident : Incident :=
      { id := db.nextId, title := input.title, created_at := now, resolved_at := none,
        status := input.status, impact := input.impact,
        impact_description := input.impact_description,
        root_cause := jsOrNull input.root_cause, updated_at := now }
    let initialUpdate : IncidentUpdate :=
      { id := db.nextId + 1, message := input.initial_update_message,
        status := input.status, timestamp := now, incident_id := incident.id,
        created_at := now, updated_at := now }
    let db2 : DB :=
      { db with
        incidents := db.incidents ++ [incident]
        incidentUpdates := db.incidentUpdates ++ [initialUpdate]
        incidentAffected := db.incidentAffected ++
          input.affected_component_ids.map
            (fun i => { incident_id := incident.id, component_id := i })
        nextId := db.nextId + 2 }
    (insertAudit db2 now "create_incident" ("Created incident: " ++ incident.title),
     .ok incident)

/-- Input of `updateIncident` per the zod schema: every field optional, the
nullable ones optional-nullable. -/
structure UpdateIncidentInput where
  id : Nat
  title : Option String
  status : Option IncidentStatus
  impact : Option IncidentImpact
  impact_description : Option (Option String)
  root_cause : Option (Option String)
  resolved_at : Option (Option Int)
deriving DecidableEq, Repr

/-- The row update `updateIncident` applies: provided fields overwrite, and when
the status is set to `resolved` with no explicit `resolved_at`, `resolved_at`
is stamped with `NOW()`. -/
def applyIncidentUpdate (inc : Incident) (input : UpdateIncidentInput) (now : Int) : Incident :=
  let inc1 := { inc with updated_at := now }
  let inc2 := match input.title with | some t => { inc1 with title := t } | none => inc1
  let inc3 := match input.status with | some s => { inc2 with status := s } | none => inc2
  let inc4 := match input.impact with | some im => { inc3 with impact := im } | none => inc3
  let inc5 :=
    match input.impact_description with
    | some d => { inc4 with impact_description := d }
    | none => inc4
  let inc6 :=
    match input.root_cause with
    | some r => { inc5 with root_cause := r }
    | none => inc5
  let inc7 :=
    match input.resolved_at with
    | some r => { inc6 with resolved_at := r }
    | none => inc6
  if input.status = some .resolved ∧ input.resolved_at = none then
    { inc7 with resolved_at := some now }
  else inc7

/-- `updateIncident`: one transaction updating the matching row and writing the
audit row; "Incident not found" (and rollback) when no row matched. -/
def updateIncident (db : DB) (input : UpdateIncidentInput) (now : Int) :
    DB × Outcome Incident :=
  match db.incidents.find? (fun inc => inc.id == input.id) with
  | none => (db, .error "Incident not found")
  | some inc0 =>
      let db2 : DB :=
        { db with
          incidents := db.incidents.map
            (fun inc => if inc.id == input.id then applyIncidentUpdate inc input now else inc) }
      (insertAudit db2 now "update_incident"
        ("Updated incident: " ++ (applyIncidentUpdate inc0 input now).title),
       .ok (applyIncidentUpdate inc0 input now))

/-- Input of `createIncidentUpdate` per the zod schema. -/
structure CreateIncidentUpdateInput where
  message : String
  status : IncidentStatus
  timestamp : Option Int
  incident_id : Nat
deriving DecidableEq, Repr

/-- `createIncidentUpdate`: one transaction inserting the update row (the
foreign key on `incident_id` throws, rolling back, when the incident does not
exist), overwriting the parent incident's status, and writing the audit row.
It never touches `resolved_at`. -/
def createIncidentUpdate (db : DB) (input : CreateIncidentUpdateInput) (now : Int) :
    DB × Outcome IncidentUpdate :=
  if db.incidents.any (fun inc => inc.id == input.incident_id) = false then
    (db, .error "insert into incident_updates violates foreign key constraint")
  else
    let u : IncidentUpdate :=
      { id := db.nextId, message := input.message, status := input.status,
        timestamp := input.timestamp.getD now, incident_id := input.incident_id,
        created_at := now, updated_at := now }
    let db2 : DB :=
      { db with
        incidentUpdates := db.incidentUpdates ++ [u]
        incidents := db.incidents.map
          (fun inc =>
            if inc.id == input.incident_id then
              { inc with status := input.status, updated_at := now }
            else inc)
        nextId := db.nextId + 1 }
    (insertAudit db2 now "create_incident_update"
      ("Created update for incident " ++ toString input.incident_id),
     .ok u)

/-- `getActiveIncidents`: all incidents whose `resolved_at` IS NULL, ordered by
`created_at` descending. -/
def getActiveIncidents (db : DB) : List Incident :=
  sortLe (fun a b => b.created_at ≤ a.created_at)
    (db.incidents.filter (fun inc => inc.resolved_at.isNone))

/-- `deleteIncident`: "Incident not found" when absent; otherwise delete the
incident (the schema cascades to its updates and join rows) and log. -/
def deleteIncident (db : DB) (id : Nat) (now : Int) : DB × Outcome Unit :=
  match db.incidents.find? (fun inc => inc.id == id) with
  | none => (db, .error "Incident not found")
  | some inc =>
      let db2 : DB :=
        { db with
          incidents := db.incidents.filter (fun i => i.id != id)
          incidentUpdates := db.incidentUpdates.filter (fun u => u.incident_id != id)
          incidentAffected := db.incidentAffected.filter (fun r => r.incident_id != id) }
      (insertAudit db2 now "delete_incident" ("Deleted incident: " ++ inc.title), .ok ())

/-- `deleteIncidentUpdate`: "Incident update not found" when the delete touched
no row; otherwise delete and log. -/
def deleteIncidentUpdate (db : DB) (id : Nat) (now : Int) : DB × Outcome Unit :=
  if db.incidentUpdates.any (fun u => u.id == id) = false then
    (db, .error "Incident update not found")
  else
    let db2 : DB := { db with incidentUpdates := db.incidentUpdates.filter (fun u => u.id != id) }
    (insertAudit db2 now "delete_incident_update"
      ("Deleted incident update " ++ toString id), .ok ())

/-- Input of `createMaintenanceWindow` per the zod schema. -/
structure CreateMaintenanceWindowInput where
  title : String
  description : Option String
  start_time : Int
  end_time : Int
  status : MaintenanceStatus
  affected_component_ids : List Nat
deriving DecidableEq, Repr

/-- `createMaintenanceWindow`: NOT wrapped in a transaction.  It verifies each
affected component id, then inserts the window, then inserts the join rows,
then the audit row, as separate auto-committed statements; a join-row insert
that throws (a duplicated id violating the composite primary key) leaves the
already-committed window row in place. -/
def createMaintenanceWindow (db : DB) (input : CreateMaintenanceWindowInput) (now : Int) :
    DB × Outcome MaintenanceWindow :=
  match input.affected_component_ids.find? (fun i => componentExists db i = false) with
  | some badId => (db, .error ("Component with id " ++ toString badId ++ " does not exist"))
  | none =>
      let w : MaintenanceWindow :=
        { id := db.nextId, title := input.title, description := input.description,
          start_time := input.start_time, end_time := input.end_time,
          status := input.status, created_at := now, updated_at := now }
      let db1 : DB :=
        { db with maintenanceWindows := db.maintenanceWindows ++ [w], nextId := db.nextId + 1 }
      if hasDup input.affected_component_ids then
        (db1, .error "insert into maintenance_affected_components violates unique constraint")
      else
        let db2 : DB :=
          { db1 with
            maintenanceAffected := db1.maintenanceAffected ++
              input.affected_component_ids.map
                (fun i => { maintenance_id := w.id, component_id := i }) }
        (insertAudit db2 now "CREATE_MAINTENANCE_WINDOW"
          ("Created maintenance window: " ++ input.title), .ok w)

/-- `getActiveMaintenanceWindows`: status `in_progress` AND `start_time ≤ now`
AND `end_time ≥ now`, ordered by `start_time` descending. -/
def getActiveMaintenanceWindows (db : DB) (now : Int) : List MaintenanceWindow :=
  sortLe (fun a b => b.start_time ≤ a.start_time)
    (db.maintenanceWindows.filter
      (fun w =>
        decide (w.status = .in_progress ∧ w.start_time ≤ now ∧ now ≤ w.end_time)))

/-- `deleteMaintenanceWindow`: "does not exist" when absent; otherwise delete
(the schema cascades to updates and join rows) and log. -/
def deleteMaintenanceWindow (db : DB) (id : Nat) (now : Int) : DB × Outcome Unit :=
  if db.maintenanceWindows.any (fun w => w.id == id) = false then
    (db, .error ("Maintenance window with id " ++ toString id ++ " does not exist"))
  else
    let db2 : DB :=
      { db with
        maintenanceWindows := db.maintenanceWindows.filter (fun w => w.id != id)
        maintenanceUpdates := db.maintenanceUpdates.filter (fun u => u.maintenance_id != id)
        maintenanceAffected := db.maintenanceAffected.filter (fun r => r.maintenance_id != id) }
    (insertAudit db2 now "DELETE_MAINTENANCE_WINDOW"
      ("Deleted maintenance window id " ++ toString id), .ok ())

/-- `deleteMaintenanceUpdate`: "does not exist" when absent; otherwise delete
and log. -/
def deleteMaintenanceUpdate (db : DB) (id : Nat) (now : Int) : DB × Outcome Unit :=
  if db.maintenanceUpdates.any (fun u => u.id == id) = false then
    (db, .error ("Maintenance update with id " ++ toString id ++ " does not exist"))
  else
    let db2 : DB :=
      { db with maintenanceUpdates := db.maintenanceUpdates.filter (fun u => u.id != id) }
    (insertAudit db2 now "DELETE_MAINTENANCE_UPDATE"
      ("Deleted maintenance update id " ++ toString id), .ok ())

/-- The `{ affected_components, success }` result of `executeAutomation`. -/
structure ExecuteResult where
  affected_components : Nat
  success : Bool
deriving DecidableEq, Repr

/-- The `componentIds` query of `executeAutomation`: the automation's target
component ids read from the join table. -/
def automationTargets (db : DB) (automationId : Nat) : List Nat :=
  (db.automationComponents.filter (fun r => r.automation_id == automationId)).map
    (fun r => r.component_id)

/-- `executeAutomation`: "not found" for an unknown automation id; with no
target components it only logs and returns `{0, true}`; otherwise it sets every
target component's status to the automation's `new_status` in one batch update,
logs, and returns the target count. -/
def executeAutomation (db : DB) (automationId : Nat) (now : Int) :
    DB × Outcome ExecuteResult :=
  match db.automations.find? (fun a => a.id == automationId) with
  | none => (db, .error ("Automation with id " ++ toString automationId ++ " not found"))
  | some a =>
      if (automationTargets db automationId).isEmpty then
        (insertAudit db now "execute_automation"
          ("Executed automation \"" ++ a.name ++ "\" but no components were targeted"),
         .ok { affected_components := 0, success := true })
      else
        let db2 : DB :=
          { db with
            components := db.components.map
              (fun c =>
                if (automationTargets db automationId).contains c.id then
                  { c with status := a.new_status, updated_at := now }
                else c) }
        (insertAudit db2 now "execute_automation"
          ("Executed automation \"" ++ a.name ++ "\" affecting " ++
            toString (automationTargets db automationId).length ++
            " components. Set status to " ++
            componentStatusString a.new_status ++ "."),
         .ok { affected_components := (automationTargets db automationId).length,
               success := true })

/-- `deleteAutomation`: deletes the join rows, then the automation, then logs —
with no existence check anywhere, so it also "succeeds" for an unknown id. -/
def deleteAutomation (db : DB) (id : Nat) (now : Int) : DB × Outcome Unit :=
  let db1 : DB :=
    { db with automationComponents := db.automationComponents.filter (fun r => r.automation_id != id) }
  let db2 : DB := { db1 with automations := db1.automations.filter (fun a => a.id != id) }
  (insertAudit db2 now "delete_automation"
    ("Deleted automation with id " ++ toString id), .ok ())

/-- Input of `updateSiteSetting` per the zod schema (`value` is nullable). -/
structure UpdateSiteSettingInput where
  key : String
  value : Option String
deriving DecidableEq, Repr

/-- `updateSiteSetting`: update the rows matching the key; when none matched,
insert a new row (upsert by key). -/
def updateSiteSetting (db : DB) (input : UpdateSiteSettingInput) (now : Int) :
    DB × SiteSetting :=
  match db.siteSettings.find? (fun s => s.key == input.key) with
  | some s0 =>
      ({ db with
         siteSettings := db.siteSettings.map
           (fun s =>
             if s.key == input.key then { s with value := input.value, updated_at := now }
             else s) },
       { s0 with value := input.value, updated_at := now })
  | none =>
      let s : SiteSetting :=
        { id := db.nextId, key := input.key, value := input.value,
          created_at := now, updated_at := now }
      ({ db with siteSettings := db.siteSettings ++ [s], nextId := db.nextId + 1 }, s)

/-- `getSiteSetting`: the first row with the key, if any. -/
def getSiteSetting (db : DB) (key : String) : Option SiteSetting :=
  db.siteSettings.find? (fun s => s.key == key)

/-- `getMaintenanceMode`: true only when the stored value is exactly "true". -/
def getMaintenanceMode (db : DB) : Bool :=
  match getSiteSetting db "maintenance_mode_enabled" with
  | some s => s.value == some "true"
  | none => false

/-- `getMaintenanceModeMessage`: the stored message value, or null. -/
def getMaintenanceModeMessage (db : DB) : Option String :=
  match getSiteSetting db "maintenance_mode_message" with
  | some s => s.value
  | none => none

/-- JavaScript `toString` of a boolean. -/
def boolString : Bool → String
  | true => "true"
  | false => "false"

/-- `setMaintenanceMode`: always upserts `maintenance_mode_enabled` to the
string form of `enabled`; upserts `maintenance_mode_message` only when the
`message` argument is provided. -/
def setMaintenanceMode (db : DB) (enabled : Bool) (message : Option String) (now : Int) : DB :=
  let db1 := (updateSiteSetting db
    { key := "maintenance_mode_enabled", value := some (boolString enabled) } now).1
  match message with
  | some m =>
      (updateSiteSetting db1 { key := "maintenance_mode_message", value := some m } now).1
  | none => db1

/-- A sample component group row. -/
def sampleGroup (i : Nat) (ord : Int) : ComponentGroup :=
  { id := i, name := "G" ++ toString i, display_order := ord,
    collapsed_by_default := false, created_at := 0, updated_at := 0 }

/-- A sample component row. -/
def sampleComponent (i gid : Nat) (ord : Int) (st : ComponentStatus) : Component :=
  { id := i, name := "C" ++ toString i, status := st, display_order := ord,
    group_id := gid, created_at := 0, updated_at := 0 }

/-- A sample `createIncident` input with no affected components. -/
def sampleIncidentInput : CreateIncidentInput :=
  { title := "db down", status := .investigating, impact := .minor,
    impact_description := none, root_cause := none,
    affected_component_ids := [], initial_update_message := "looking into it" }

/-- The store after creating an incident and then resolving it through
`createIncidentUpdate` (the incident-update path). -/
def resolvedViaUpdateDB : DB :=
  (createIncidentUpdate (createIncident DB.empty sampleIncidentInput 100).1
    { message := "fixed", status := .resolved, timestamp := none, incident_id := 1 } 200).1

/-- C8: a maintenance window is returned by `getActiveMaintenanceWindows` iff its
status is `in_progress` and `start_time ≤ now ≤ end_time`, boundaries inclusive;
in particular an `in_progress` window outside its time range is excluded. -/
theorem active_maintenance_iff (db : DB) (now : Int) (w : MaintenanceWindow) :
    w ∈ getActiveMaintenanceWindows db now ↔
      w ∈ db.maintenanceWindows ∧ w.status = MaintenanceStatus.in_progress ∧
        w.start_time ≤ now ∧ now ≤ w.end_time := by
  unfold getActiveMaintenanceWindows
  rw [mem_sortLe]
  simp [List.mem_filter, and_assoc]

/-- C3 counterexample: after creating an incident and resolving it via
`createIncidentUpdate` (both calls succeed), `getActiveIncidents` returns an
incident whose status IS `resolved`, refuting "every incident returned by
getActiveIncidents has status not equal to resolved". -/
theorem active_incident_with_resolved_status :
    (createIncident DB.empty sampleIncidentInput 100).2.isOk = true ∧
    (createIncidentUpdate (createIncident DB.empty sampleIncidentInput 100).1
      { message := "fixed", status := .resolved, timestamp := none,
        incident_id := 1 } 200).2.isOk = true ∧
    (getActiveIncidents resolvedViaUpdateDB).map (fun i => (i.status, i.resolved_at)) =
      [(IncidentStatus.resolved, none)] := by decide

/-- C3 (amended): an incident is returned by `getActiveIncidents` if and only if
its `resolved_at` is null; the status-based characterization of "active" is not
equivalent to this on all reachable states. -/
theorem active_incidents_iff_resolved_at_null (db : DB) (inc : Incident) :
    inc ∈ getActiveIncidents db ↔ inc ∈ db.incidents ∧ inc.resolved_at = none := by
  unfold getActiveIncidents
  rw [mem_sortLe]
  simp [List.mem_filter, Option.isNone_iff_eq_none]

/-- C2 counterexample: the incident-update path drives the incident's status to
`resolved` (so the incident has reached status resolved) while `resolved_at`
stays null, refuting the claimed if-and-only-if invariant. -/
theorem resolved_without_resolved_at :
    (createIncident DB.empty sampleIncidentInput 100).2.isOk = true ∧
    (createIncidentUpdate (createIncident DB.empty sampleIncidentInput 100).1
      { message := "fixed", status := .resolved, timestamp := none,
        incident_id := 1 } 200).2.isOk = true ∧
    resolvedViaUpdateDB.incidents.map (fun i => (i.status, i.resolved_at)) =
      [(IncidentStatus.resolved, none)] := by decide

/-- C2 (amended): `resolved_at` is governed by the create/update handlers alone:
`createIncident` always initializes it to null, `createIncidentUpdate` never
changes any incident's `resolved_at` (even when the update's status is
`resolved`), and `updateIncident` stamps it with the current time exactly when
the status is set to `resolved` without an explicit `resolved_at`; so "has
reached status resolved" via the incident-update path does not imply a non-null
`resolved_at`. -/
theorem resolved_at_write_paths :
    (∀ (db : DB) (input : CreateIncidentInput) (now : Int) (inc : Incident),
        (createIncident db input now).2 = Outcome.ok inc → inc.resolved_at = none) ∧
    (∀ (db : DB) (input : CreateIncidentUpdateInput) (now : Int),
        ((createIncidentUpdate db input now).1).incidents.map (fun i => (i.id, i.resolved_at)) =
          db.incidents.map (fun i => (i.id, i.resolved_at))) ∧
    (∀ (db : DB) (input : UpdateIncidentInput) (now : Int) (inc : Incident),
        input.status = some IncidentStatus.resolved →
        input.resolved_at = none →
        (updateIncident db input now).2 = Outcome.ok inc →
        inc.resolved_at = some now) := by
  refine ⟨?_, ?_, ?_⟩
  · intro db input now inc h
    unfold createIncident at h
    split at h
    · exact absurd h (by simp)
    · split at h
      · exact absurd h (by simp)
      · simp only [Outcome.ok.injEq] at h
        rw [← h]
  · intro db input now
    unfold createIncidentUpdate
    split
    · rfl
    · simp only [insertAudit, List.map_map]
      apply List.map_congr_left
      intro i _
      show (fun i => (i.id, i.resolved_at))
        (if (i.id == input.incident_id) = true then _ else i) = _
      split <;> rfl
  · intro db input now inc h1 h2 h
    unfold updateIncident at h
    split at h
    · exact absurd h (by simp)
    · simp only [Outcome.ok.injEq] at h
      rw [← h]
      unfold applyIncidentUpdate
      rw [if_pos ⟨h1, h2⟩]

/-- The incident row `createIncident` inserts for `sampleIncidentInput` at time
100 into the empty store. -/
def sampleIncident1 : Incident :=
  { id := 1, title := "db down", created_at := 100, resolved_at := none,
    status := .investigating, impact := .minor, impact_description := none,
    root_cause := none, updated_at := 100 }

/-- An `updateIncident` input resolving incident 1 without an explicit
`resolved_at`. -/
def sampleResolveInput : UpdateIncidentInput :=
  { id := 1, title := none, status := some .resolved, impact := none,
    impact_description := none, root_cause := none, resolved_at := none }

/-- Witness for `resolved_at_write_paths` at concrete inputs. -/
theorem resolved_at_write_paths_witness :
    sampleIncident1.resolved_at = none ∧
    (applyIncidentUpdate sampleIncident1 sampleResolveInput 300).resolved_at = some 300 := by
  constructor
  · exact resolved_at_write_paths.1 DB.empty sampleIncidentInput 100 sampleIncident1 (by decide)
  · exact resolved_at_write_paths.2.2 (createIncident DB.empty sampleIncidentInput 100).1
      sampleResolveInput 300 (applyIncidentUpdate sampleIncident1 sampleResolveInput 300)
      (by decide) (by decide) (by decide)

theorem maxOrder_spec (l : List Int) (h : l ≠ []) :
    ∃ m, maxOrder l = some m ∧ m ∈ l ∧ ∀ x ∈ l, x ≤ m := by
  induction l with
  | nil => exact absurd rfl h
  | cons a l ih =>
      cases l with
      | nil => exact ⟨a, rfl, by simp, by simp⟩
      | cons b t =>
          obtain ⟨m, hm, hmem, hle⟩ := ih (by simp)
          refine ⟨max a m, ?_, ?_, ?_⟩
          · show (match maxOrder (b :: t) with
              | none => some a
              | some m => some (max a m)) = some (max a m)
            rw [hm]
          · rcases max_choice a m with h1 | h1 <;> rw [h1]
            · exact List.mem_cons_self _ _
            · exact List.mem_cons_of_mem _ hmem
          · intro x hx
            rcases List.mem_cons.mp hx with rfl | hx
            · exact le_max_left _ _
            · exact le_trans (hle x hx) (le_max_right _ _)

/-- The auto-assigned display order, `(max ?? -1) + 1`, is 0 for no siblings and
otherwise one more than the largest sibling order. -/
theorem autoOrder_spec (orders : List Int) :
    (orders = [] → (maxOrder orders).getD (-1) + 1 = 0) ∧
    (orders ≠ [] →
      ∃ m ∈ orders, (maxOrder orders).getD (-1) + 1 = m + 1 ∧ ∀ x ∈ orders, x ≤ m) := by
  constructor
  · intro h
    subst h
    rfl
  · intro h
    obtain ⟨m, hm, hmem, hle⟩ := maxOrder_spec orders h
    exact ⟨m, hmem, by rw [hm]; rfl, hle⟩

theorem createComponentGroup_display_order (db : DB) (input : CreateComponentGroupInput)
    (now : Int) (h : input.display_order = none) :
    (createComponentGroup db input now).2.display_order =
      (maxOrder (db.componentGroups.map (fun g => g.display_order))).getD (-1) + 1 := by
  simp [createComponentGroup, mkGroupWith, h]

theorem createComponent_ok_display_order (db : DB) (input : CreateComponentInput)
    (now : Int) (c : Component) (h0 : input.display_order = none)
    (h : (createComponent db input now).2 = Outcome.ok c) :
    c.display_order =
      (maxOrder ((db.components.filter (fun x => x.group_id == input.group_id)).map
        (fun x => x.display_order))).getD (-1) + 1 := by
  unfold createComponent at h
  split at h
  · exact absurd h (by simp)
  · simp only [Outcome.ok.injEq] at h
    rw [← h]
    simp [h0]

/-- C5 (amended): an omitted display_order is auto-assigned as `1 + max(existing
display_order among siblings)`, or `0` with no siblings — where the siblings of
a new ComponentGroup are all existing groups, and the siblings of a new
Component are the existing components OF ITS GROUP: the component maximum is
scoped by `group_id`, not computed globally across all components. -/
theorem display_order_auto_assignment :
    (∀ (db : DB) (input : CreateComponentGroupInput) (now : Int),
        input.display_order = none →
        (db.componentGroups = [] → (createComponentGroup db input now).2.display_order = 0) ∧
        (db.componentGroups ≠ [] →
          ∃ g ∈ db.componentGroups,
            (createComponentGroup db input now).2.display_order = g.display_order + 1 ∧
            ∀ g2 ∈ db.componentGroups, g2.display_order ≤ g.display_order)) ∧
    (∀ (db : DB) (input : CreateComponentInput) (now : Int) (c : Component),
        input.display_order = none →
        (createComponent db input now).2 = Outcome.ok c →
        (db.components.filter (fun x => x.group_id == input.group_id) = [] →
            c.display_order = 0) ∧
        (db.components.filter (fun x => x.group_id == input.group_id) ≠ [] →
          ∃ x ∈ db.components.filter (fun x => x.group_id == input.group_id),
            c.display_order = x.display_order + 1 ∧
            ∀ y ∈ db.components.filter (fun x => x.group_id == input.group_id),
              y.display_order ≤ x.display_order)) := by
  constructor
  · intro db input now h0
    rw [createComponentGroup_display_order db input now h0]
    constructor
    · intro h
      rw [h]
      rfl
    · intro h
      have hmap : db.componentGroups.map (fun g => g.display_order) ≠ [] := by
        simpa using h
      obtain ⟨m, hmem, heq, hle⟩ := (autoOrder_spec _).2 hmap
      obtain ⟨g, hg, hgm⟩ := List.mem_map.mp hmem
      refine ⟨g, hg, by rw [heq, hgm], ?_⟩
      intro g2 hg2
      rw [hgm]
      exact hle _ (List.mem_map.mpr ⟨g2, hg2, rfl⟩)
  · intro db input now c h0 h
    rw [createComponent_ok_display_order db input now c h0 h]
    constructor
    · intro hf
      rw [hf]
      rfl
    · intro hf
      have hmap : (db.components.filter (fun x => x.group_id == input.group_id)).map
          (fun x => x.display_order) ≠ [] := by
        simpa using hf
      obtain ⟨m, hmem, heq, hle⟩ := (autoOrder_spec _).2 hmap
      obtain ⟨x, hx, hxm⟩ := List.mem_map.mp hmem
      refine ⟨x, hx, by rw [heq, hxm], ?_⟩
      intro y hy
      rw [hxm]
      exact hle _ (List.mem_map.mpr ⟨y, hy, rfl⟩)

/-- A store with two groups where only group 1 has a component (of display
order 5). -/
def twoGroupsDB : DB :=
  { DB.empty with
    componentGroups := [sampleGroup 1 0, sampleGroup 2 1]
    components := [sampleComponent 3 1 5 .operational]
    nextId := 4 }

/-- A `createComponent` input into group 2 with no explicit display order. -/
def autoOrderInput : CreateComponentInput :=
  { name := "api", status := .operational, display_order := none, group_id := 2 }

/-- C5 counterexample: creating a component in empty group 2 of `twoGroupsDB`
without a display_order assigns 0, although the global maximum across all
components would give `5 + 1 = 6` — the source's auto-order IS scoped to the
group, refuting the claimed global computation. -/
theorem component_auto_order_not_global :
    (createComponent twoGroupsDB autoOrderInput 7).2 =
      Outcome.ok { id := 4, name := "api", status := .operational, display_order := 0,
                   group_id := 2, created_at := 7, updated_at := 7 } ∧
    (maxOrder (twoGroupsDB.components.map (fun c => c.display_order))).getD (-1) + 1 = 6 := by
  decide

/-- A `createComponent` input into group 1 (which has a component of display
order 5) with no explicit display order. -/
def autoOrderInput1 : CreateComponentInput :=
  { name := "web", status := .operational, display_order := none, group_id := 1 }

/-- Witness for `display_order_auto_assignment` at concrete inputs: in group 1
of `twoGroupsDB` the assigned order is the sibling maximum 5 plus one. -/
theorem display_order_auto_assignment_witness :
    ∃ x ∈ twoGroupsDB.components.filter (fun x => x.group_id == autoOrderInput1.group_id),
      (6 : Int) = x.display_order + 1 ∧
      ∀ y ∈ twoGroupsDB.components.filter (fun x => x.group_id == autoOrderInput1.group_id),
        y.display_order ≤ x.display_order := by
  have h := (display_order_auto_assignment.2 twoGroupsDB autoOrderInput1 7
    { id := 4, name := "web", status := .operational, display_order := 6,
      group_id := 1, created_at := 7, updated_at := 7 } (by decide) (by decide)).2 (by decide)
  exact h

/-- A store with one group and one component (id 2). -/
def oneComponentDB : DB :=
  { DB.empty with
    componentGroups := [sampleGroup 1 0]
    components := [sampleComponent 2 1 0 .operational]
    nextId := 3 }

/-- A `createMaintenanceWindow` input whose affected-component list repeats id 2,
so the join-row batch insert violates the join table's composite primary key. -/
def dupLinkMaintenanceInput : CreateMaintenanceWindowInput :=
  { title := "migration", description := none, start_time := 10, end_time := 20,
    status := .scheduled, affected_component_ids := [2, 2] }

/-- A `createIncident` input with the same duplicated affected-component list. -/
def dupLinkIncidentInput : CreateIncidentInput :=
  { title := "outage", status := .investigating, impact := .major,
    impact_description := none, root_cause := none,
    affected_component_ids := [2, 2], initial_update_message := "looking" }

/-- C4 counterexample: `createMaintenanceWindow` is not atomic — when its
affected-component link insert fails after the window insert, the call errors
but the maintenance-window row remains in the store. -/
theorem create_maintenance_window_not_atomic :
    (createMaintenanceWindow oneComponentDB dupLinkMaintenanceInput 5).2.isOk = false ∧
    (createMaintenanceWindow oneComponentDB dupLinkMaintenanceInput 5).1.maintenanceWindows.length = 1 ∧
    oneComponentDB.maintenanceWindows.length = 0 := by decide

/-- C4 (amended): `createIncident` runs in one transaction, so on any failure
the store is left exactly as it was; `createMaintenanceWindow` is not wrapped in
a transaction — a failed call still writes no audit row, but when its
affected-component link insert fails (all ids exist but one is duplicated,
violating the join table's composite primary key) the already-inserted window
row remains. -/
theorem multi_step_mutation_atomicity :
    (∀ (db : DB) (input : CreateIncidentInput) (now : Int),
        (createIncident db input now).2.isOk = false →
        (createIncident db input now).1 = db) ∧
    (∀ (db : DB) (input : CreateMaintenanceWindowInput) (now : Int),
        (createMaintenanceWindow db input now).2.isOk = false →
        (createMaintenanceWindow db input now).1.auditLogs = db.auditLogs) ∧
    (∀ (db : DB) (input : CreateMaintenanceWindowInput) (now : Int),
        hasDup input.affected_component_ids = true →
        input.affected_component_ids.all (fun i => componentExists db i) = true →
        (createMaintenanceWindow db input now).2.isOk = false ∧
        (createMaintenanceWindow db input now).1.maintenanceWindows.length =
          db.maintenanceWindows.length + 1) := by
  refine ⟨?_, ?_, ?_⟩
  · intro db input now
    unfold createIncident
    split
    · intro _
      rfl
    · split
      · intro _
        rfl
      · intro h
        exact absurd h (by simp [Outcome.isOk])
  · intro db input now
    unfold createMaintenanceWindow
    split
    · intro _
      rfl
    · split
      · intro _
        rfl
      · intro h
        exact absurd h (by simp [Outcome.isOk])
  · intro db input now hdup hall
    have hfind : input.affected_component_ids.find? (fun i => componentExists db i = false) = none := by
      rw [List.find?_eq_none]
      intro i hi
      have := List.all_eq_true.mp hall i hi
      simp [this]
    unfold createMaintenanceWindow
    rw [hfind]
    rw [if_pos hdup]
    constructor
    · rfl
    · simp

/-- Witness for `multi_step_mutation_atomicity` at concrete inputs: a duplicated
link in `createMaintenanceWindow` leaves the window row behind, and the same
failure in `createIncident` leaves the store untouched. -/
theorem multi_step_mutation_atomicity_witness :
    ((createMaintenanceWindow oneComponentDB dupLinkMaintenanceInput 5).2.isOk = false ∧
      (createMaintenanceWindow oneComponentDB dupLinkMaintenanceInput 5).1.maintenanceWindows.length =
        oneComponentDB.maintenanceWindows.length + 1) ∧
    (createIncident oneComponentDB dupLinkIncidentInput 5).1 = oneComponentDB :=
  ⟨multi_step_mutation_atomicity.2.2 oneComponentDB dupLinkMaintenanceInput 5
      (by decide) (by decide),
   multi_step_mutation_atomicity.1 oneComponentDB dupLinkIncidentInput 5 (by decide)⟩

/-- C7 counterexample: `deleteAutomation` of an id that does not exist does not
fail with "not found" — it succeeds silently and even writes an audit row. -/
theorem delete_unknown_automation_succeeds :
    DB.empty.automations.all (fun a => a.id != 99) = true ∧
    (deleteAutomation DB.empty 99 5).2 = Outcome.ok () ∧
    (deleteAutomation DB.empty 99 5).1.auditLogs.map (fun a => (a.action, a.details)) =
      [("delete_automation", some "Deleted automation with id 99")] := by decide

/-- C7 (amended): `deleteComponentGroup` fails with a conflict (deleting
nothing) when any component references the group, succeeds for an existing
empty group, and reports not-found otherwise; deleting a nonexistent Incident,
MaintenanceWindow, IncidentUpdate or MaintenanceUpdate fails with "not found"
while deleting an existing Incident or MaintenanceWindow cascades to its owned
updates and join rows — but `deleteAutomation` performs its deletes without any
existence check and succeeds even for an unknown id. -/
theorem deletion_guards :
    (∀ (db : DB) (id : Nat), (∃ c ∈ db.components, c.group_id = id) →
        deleteComponentGroup db id =
          (db, Outcome.error "Cannot delete component group that contains components")) ∧
    (∀ (db : DB) (id : Nat), (∀ c ∈ db.components, c.group_id ≠ id) →
        (∃ g ∈ db.componentGroups, g.id = id) →
        (deleteComponentGroup db id).2 = Outcome.ok () ∧
        ∀ g, g ∈ (deleteComponentGroup db id).1.componentGroups ↔
          g ∈ db.componentGroups ∧ g.id ≠ id) ∧
    (∀ (db : DB) (id : Nat), (∀ c ∈ db.components, c.group_id ≠ id) →
        (∀ g ∈ db.componentGroups, g.id ≠ id) →
        (deleteComponentGroup db id).2 =
          Outcome.error ("Component group with id " ++ toString id ++ " not found")) ∧
    (∀ (db : DB) (id : Nat) (now : Int), (∀ i ∈ db.incidents, i.id ≠ id) →
        deleteIncident db id now = (db, Outcome.error "Incident not found")) ∧
    (∀ (db : DB) (id : Nat) (now : Int), (∃ i ∈ db.incidents, i.id = id) →
        (deleteIncident db id now).2 = Outcome.ok () ∧
        (∀ i ∈ (deleteIncident db id now).1.incidents, i.id ≠ id) ∧
        (∀ u ∈ (deleteIncident db id now).1.incidentUpdates, u.incident_id ≠ id) ∧
        (∀ r ∈ (deleteIncident db id now).1.incidentAffected, r.incident_id ≠ id)) ∧
    (∀ (db : DB) (id : Nat) (now : Int), (∀ w ∈ db.maintenanceWindows, w.id ≠ id) →
        deleteMaintenanceWindow db id now =
          (db, Outcome.error ("Maintenance window with id " ++ toString id ++
            " does not exist"))) ∧
    (∀ (db : DB) (id : Nat) (now : Int), (∃ w ∈ db.maintenanceWindows, w.id = id) →
        (deleteMaintenanceWindow db id now).2 = Outcome.ok () ∧
        (∀ w ∈ (deleteMaintenanceWindow db id now).1.maintenanceWindows, w.id ≠ id) ∧
        (∀ u ∈ (deleteMaintenanceWindow db id now).1.maintenanceUpdates,
          u.maintenance_id ≠ id) ∧
        (∀ r ∈ (deleteMaintenanceWindow db id now).1.maintenanceAffected,
          r.maintenance_id ≠ id)) ∧
    (∀ (db : DB) (id : Nat) (now : Int), (∀ u ∈ db.incidentUpdates, u.id ≠ id) →
        deleteIncidentUpdate db id now = (db, Outcome.error "Incident update not found")) ∧
    (∀ (db : DB) (id : Nat) (now : Int), (∀ u ∈ db.maintenanceUpdates, u.id ≠ id) →
        deleteMaintenanceUpdate db id now =
          (db, Outcome.error ("Maintenance update with id " ++ toString id ++
            " does not exist"))) ∧
    (∀ (db : DB) (id : Nat) (now : Int), (deleteAutomation db id now).2 = Outcome.ok ()) := by
  refine ⟨?_, ?_, ?_, ?_, ?_, ?_, ?_, ?_, ?_, ?_⟩
  · intro db id h
    obtain ⟨c, hc, hcg⟩ := h
    have hmem : c ∈ db.components.filter (fun c => c.group_id == id) :=
      List.mem_filter.mpr ⟨hc, by simp [hcg]⟩
    have hne : (db.components.filter (fun c => c.group_id == id)).isEmpty = false := by
      cases hE : (db.components.filter (fun c => c.group_id == id)).isEmpty
      · rfl
      · rw [List.isEmpty_iff] at hE
        rw [hE] at hmem
        exact absurd hmem (List.not_mem_nil c)
    unfold deleteComponentGroup
    rw [if_pos hne]
  · intro db id h hg
    have hfilter : db.components.filter (fun c => c.group_id == id) = [] := by
      rw [List.filter_eq_nil_iff]
      intro c hc
      simp [h c hc]
    have hany : db.componentGroups.any (fun g => g.id == id) = true := by
      rw [List.any_eq_true]
      obtain ⟨g, hg1, hg2⟩ := hg
      exact ⟨g, hg1, by simp [hg2]⟩
    unfold deleteComponentGroup
    rw [hfilter]
    rw [if_neg (by simp)]
    rw [if_pos hany]
    refine ⟨rfl, ?_⟩
    intro g
    simp [List.mem_filter]
  · intro db id h hg
    have hfilter : db.components.filter (fun c => c.group_id == id) = [] := by
      rw [List.filter_eq_nil_iff]
      intro c hc
      simp [h c hc]
    have hany : db.componentGroups.any (fun g => g.id == id) = false := by
      cases hA : db.componentGroups.any (fun g => g.id == id)
      · rfl
      · obtain ⟨g, hg1, hg2⟩ := List.any_eq_true.mp hA
        exact absurd (by simpa using hg2) (hg g hg1)
    unfold deleteComponentGroup
    rw [hfilter]
    rw [if_neg (by simp)]
    rw [if_neg (by simp [hany])]
  · intro db id now h
    have hfind : db.incidents.find? (fun i => i.id == id) = none := by
      rw [List.find?_eq_none]
      intro i hi
      simp [h i hi]
    unfold deleteIncident
    rw [hfind]
  · intro db id now h
    cases hfind : db.incidents.find? (fun i => i.id == id) with
    | none =>
        obtain ⟨i, hi1, hi2⟩ := h
        have := List.find?_eq_none.mp hfind i hi1
        exact absurd (by simp [hi2]) this
    | some inc =>
        unfold deleteIncident
        rw [hfind]
        refine ⟨rfl, ?_, ?_, ?_⟩ <;>
          · intro x hx
            simp only [insertAudit] at hx
            have := (List.mem_filter.mp hx).2
            simpa using this
  · intro db id now h
    have hany : db.maintenanceWindows.any (fun w => w.id == id) = false := by
      cases hA : db.maintenanceWindows.any (fun w => w.id == id)
      · rfl
      · obtain ⟨w, hw1, hw2⟩ := List.any_eq_true.mp hA
        exact absurd (by simpa using hw2) (h w hw1)
    unfold deleteMaintenanceWindow
    rw [if_pos (by simp [hany])]
  · intro db id now h
    have hany : db.maintenanceWindows.any (fun w => w.id == id) = true := by
      rw [List.any_eq_true]
      obtain ⟨w, hw1, hw2⟩ := h
      exact ⟨w, hw1, by simp [hw2]⟩
    unfold deleteMaintenanceWindow
    rw [if_neg (by simp [hany])]
    refine ⟨rfl, ?_, ?_, ?_⟩ <;>
      · intro x hx
        simp only [insertAudit] at hx
        have := (List.mem_filter.mp hx).2
        simpa using this
  · intro db id now h
    have hany : db.incidentUpdates.any (fun u => u.id == id) = false := by
      cases hA : db.incidentUpdates.any (fun u => u.id == id)
      · rfl
      · obtain ⟨u, hu1, hu2⟩ := List.any_eq_true.mp hA
        exact absurd (by simpa using hu2) (h u hu1)
    unfold deleteIncidentUpdate
    rw [if_pos (by simp [hany])]
  · intro db id now h
    have hany : db.maintenanceUpdates.any (fun u => u.id == id) = false := by
      cases hA : db.maintenanceUpdates.any (fun u => u.id == id)
      · rfl
      · obtain ⟨u, hu1, hu2⟩ := List.any_eq_true.mp hA
        exact absurd (by simpa using hu2) (h u hu1)
    unfold deleteMaintenanceUpdate
    rw [if_pos (by simp [hany])]
  · intro db id now
    rfl

/-- Witness for `deletion_guards` at concrete inputs: a group with a component
yields the conflict error, and deleting a nonexistent incident yields the
not-found error. -/
theorem deletion_guards_witness :
    deleteComponentGroup oneComponentDB 1 =
      (oneComponentDB, Outcome.error "Cannot delete component group that contains components") ∧
    deleteIncident DB.empty 7 3 = (DB.empty, Outcome.error "Incident not found") :=
  ⟨deletion_guards.1 oneComponentDB 1
      ⟨sampleComponent 2 1 0 .operational, by decide, by decide⟩,
   deletion_guards.2.2.2.1 DB.empty 7 3 (by decide)⟩

/-- A store with one automation (id 1, new_status major_outage) and no target
components. -/
def emptyTargetsDB : DB :=
  { DB.empty with
    automations := [{ id := 1, name := "A", new_status := .major_outage,
                      created_at := 0, updated_at := 0 }]
    nextId := 2 }

/-- C6 counterexample: executing an automation with an empty target set does
record an audit entry, but that entry's details neither state the resulting
status nor the numeric target count — they only name the automation and note
that no components were targeted. -/
theorem execute_automation_empty_audit_omits_status :
    (executeAutomation emptyTargetsDB 1 30).2 =
      Outcome.ok { affected_components := 0, success := true } ∧
    (executeAutomation emptyTargetsDB 1 30).1.auditLogs.map (fun a => a.details) =
      [some "Executed automation \"A\" but no components were targeted"] ∧
    isInfixB (componentStatusString ComponentStatus.major_outage).data
      "Executed automation \"A\" but no components were targeted".data = false ∧
    isInfixB "0".data
      "Executed automation \"A\" but no components were targeted".data = false := by decide

/-- C6 (amended): `executeAutomation` fails with "not found" for an unknown id;
with an empty target set it performs no component writes, returns
`{affected_components := 0, success := true}` and records an audit entry that
names the automation and notes that no components were targeted (without
stating the resulting status); with a non-empty target set it sets every
target component's status to the automation's new_status, returns the target
count, and records an audit entry stating the name, the count and the
resulting status. -/
theorem execute_automation_spec :
    (∀ (db : DB) (id : Nat) (now : Int),
        db.automations.find? (fun a => a.id == id) = none →
        executeAutomation db id now =
          (db, Outcome.error ("Automation with id " ++ toString id ++ " not found"))) ∧
    (∀ (db : DB) (id : Nat) (now : Int) (a : Automation),
        db.automations.find? (fun x => x.id == id) = some a →
        automationTargets db id = [] →
        (executeAutomation db id now).2 =
          Outcome.ok { affected_components := 0, success := true } ∧
        (executeAutomation db id now).1.components = db.components ∧
        (executeAutomation db id now).1.auditLogs =
          db.auditLogs ++
            [{ id := db.nextId, timestamp := now, username := "system",
               action := "execute_automation",
               details := some ("Executed automation \"" ++ a.name ++
                 "\" but no components were targeted"),
               created_at := now }]) ∧
    (∀ (db : DB) (id : Nat) (now : Int) (a : Automation),
        db.automations.find? (fun x => x.id == id) = some a →
        automationTargets db id ≠ [] →
        (executeAutomation db id now).2 =
          Outcome.ok { affected_components := (automationTargets db id).length,
                       success := true } ∧
        (∀ c ∈ (executeAutomation db id now).1.components,
          (c.id ∈ automationTargets db id → c.status = a.new_status) ∧
          (c.id ∉ automationTargets db id → c ∈ db.components)) ∧
        (executeAutomation db id now).1.auditLogs =
          db.auditLogs ++
            [{ id := db.nextId, timestamp := now, username := "system",
               action := "execute_automation",
               details := some ("Executed automation \"" ++ a.name ++ "\" affecting " ++
                 toString (automationTargets db id).length ++
                 " components. Set status to " ++ componentStatusString a.new_status ++ "."),
               created_at := now }]) := by
  refine ⟨?_, ?_, ?_⟩
  · intro db id now hfind
    unfold executeAutomation
    rw [hfind]
  · intro db id now a hfind hfilter
    unfold executeAutomation
    simp only [hfind]
    rw [if_pos (by rw [hfilter]; rfl)]
    exact ⟨rfl, rfl, rfl⟩
  · intro db id now a hfind hfilter
    have hne : ((automationTargets db id).isEmpty = true) → False := by
      intro hE
      exact hfilter (List.isEmpty_iff.mp hE)
    unfold executeAutomation
    simp only [hfind]
    rw [if_neg hne]
    refine ⟨rfl, ?_, rfl⟩
    intro c hc
    simp only [insertAudit] at hc
    obtain ⟨x, hx, hgx⟩ := List.mem_map.mp hc
    by_cases ht : (automationTargets db id).contains x.id = true
    · rw [if_pos ht] at hgx
      constructor
      · intro _
        rw [← hgx]
      · intro hnot
        exact absurd (by simpa using ht) (by rw [← hgx] at hnot; simpa using hnot)
    · rw [if_neg ht] at hgx
      constructor
      · intro hmem
        rw [← hgx] at hmem
        exact absurd (by simpa using hmem) ht
      · intro _
        rw [← hgx]
        exact hx

/-- A store with one automation (id 4) targeting components 2 and 3. -/
def twoTargetsDB : DB :=
  { DB.empty with
    componentGroups := [sampleGroup 1 0]
    components := [sampleComponent 2 1 0 .operational, sampleComponent 3 1 1 .operational]
    automations := [{ id := 4, name := "A", new_status := .major_outage,
                      created_at := 0, updated_at := 0 }]
    automationComponents := [{ automation_id := 4, component_id := 2 },
                             { automation_id := 4, component_id := 3 }]
    nextId := 5 }

/-- Witness for `execute_automation_spec` at concrete inputs. -/
theorem execute_automation_spec_witness :
    executeAutomation twoTargetsDB 9 1 =
      (twoTargetsDB, Outcome.error "Automation with id 9 not found") ∧
    (executeAutomation twoTargetsDB 4 1).2 =
      Outcome.ok { affected_components := 2, success := true } :=
  ⟨execute_automation_spec.1 twoTargetsDB 9 1 (by decide),
   (execute_automation_spec.2.2 twoTargetsDB 4 1
      { id := 4, name := "A", new_status := .major_outage, created_at := 0, updated_at := 0 }
      (by decide) (by decide)).1⟩

theorem find_map_update (l : List SiteSetting) (k : String) (v : Option String) (now : Int) :
    (l.map (fun s => if s.key == k then { s with value := v, updated_at := now } else s)).find?
      (fun s => s.key == k) =
    (l.find? (fun s => s.key == k)).map (fun s => { s with value := v, updated_at := now }) := by
  induction l with
  | nil => rfl
  | cons s l ih =>
      simp only [List.map_cons]
      by_cases h : (s.key == k) = true
      · rw [if_pos h]
        have h2 : (({ s with value := v, updated_at := now } : SiteSetting).key == k) = true := h
        rw [List.find?_cons_of_pos (p := fun (s : SiteSetting) => s.key == k) _ h2,
          List.find?_cons_of_pos (p := fun (s : SiteSetting) => s.key == k) _ h]
        rfl
      · rw [if_neg h]
        rw [List.find?_cons_of_neg (p := fun (s : SiteSetting) => s.key == k) _ (by simpa using h),
          List.find?_cons_of_neg (p := fun (s : SiteSetting) => s.key == k) _ (by simpa using h)]
        exact ih

theorem find_map_update_other (l : List SiteSetting) (k : String) (v : Option String)
    (now : Int) (k2 : String) (h : k2 ≠ k) :
    (l.map (fun s => if s.key == k then { s with value := v, updated_at := now } else s)).find?
      (fun s => s.key == k2) = l.find? (fun s => s.key == k2) := by
  induction l with
  | nil => rfl
  | cons s l ih =>
      simp only [List.map_cons]
      by_cases hk : (s.key == k) = true
      · have hs : s.key = k := by simpa using hk
        have hk2 : (s.key == k2) = false := by
          rw [hs]
          exact beq_eq_false_iff_ne.mpr (fun hh => h hh.symm)
        rw [if_pos hk]
        have hk2b : (({ s with value := v, updated_at := now } : SiteSetting).key == k2) = false :=
          hk2
        rw [List.find?_cons_of_neg (p := fun (s : SiteSetting) => s.key == k2) _ (by simp [hk2b]),
          List.find?_cons_of_neg (p := fun (s : SiteSetting) => s.key == k2) _ (by simp [hk2])]
        exact ih
      · rw [if_neg hk]
        by_cases hm : (s.key == k2) = true
        · rw [List.find?_cons_of_pos (p := fun (s : SiteSetting) => s.key == k2) _ hm,
            List.find?_cons_of_pos (p := fun (s : SiteSetting) => s.key == k2) _ hm]
        · rw [List.find?_cons_of_neg (p := fun (s : SiteSetting) => s.key == k2) _ (by simpa using hm),
            List.find?_cons_of_neg (p := fun (s : SiteSetting) => s.key == k2) _ (by simpa using hm)]
          exact ih

theorem updateSiteSetting_get (db : DB) (k : String) (v : Option String) (now : Int) :
    ∃ s, getSiteSetting (updateSiteSetting db { key := k, value := v } now).1 k = some s ∧
      s.value = v := by
  unfold updateSiteSetting getSiteSetting
  cases hf : db.siteSettings.find? (fun s => s.key == k) with
  | some s0 =>
      refine ⟨{ s0 with value := v, updated_at := now }, ?_, rfl⟩
      simp only [hf]
      rw [find_map_update, hf]
      rfl
  | none =>
      refine ⟨{ id := db.nextId, key := k, value := v, created_at := now, updated_at := now },
        ?_, rfl⟩
      simp only [hf]
      rw [List.find?_append, hf]
      simp [List.find?]

theorem updateSiteSetting_frame (db : DB) (k : String) (v : Option String) (now : Int)
    (k2 : String) (h : k2 ≠ k) :
    getSiteSetting (updateSiteSetting db { key := k, value := v } now).1 k2 =
      getSiteSetting db k2 := by
  unfold updateSiteSetting getSiteSetting
  cases hf : db.siteSettings.find? (fun s => s.key == k) with
  | some s0 =>
      simp only [hf]
      exact find_map_update_other db.siteSettings k v now k2 h
  | none =>
      simp only [hf]
      rw [List.find?_append]
      have hnew : List.find? (fun (s : SiteSetting) => s.key == k2)
          [({ id := db.nextId, key := k, value := v, created_at := now,
              updated_at := now } : SiteSetting)] =
          none := by
        simp [List.find?, beq_eq_false_iff_ne.mpr (fun hh => h hh.symm)]
      rw [hnew]
      exact Option.or_none

/-- C9: `setMaintenanceMode` always upserts `maintenance_mode_enabled` to the
string form of `enabled`, touches `maintenance_mode_message` exactly when the
`message` argument is provided (an empty string stores `""`), leaves the stored
message unchanged when `message` is omitted, and in particular
`setMaintenanceMode(true, "msg")` followed by `setMaintenanceMode(false)`
leaves `getMaintenanceModeMessage()` equal to `"msg"`. -/
theorem set_maintenance_mode_spec :
    (∀ (db : DB) (enabled : Bool) (message : Option String) (now : Int),
        ∃ s, getSiteSetting (setMaintenanceMode db enabled message now)
            "maintenance_mode_enabled" = some s ∧
          s.value = some (boolString enabled)) ∧
    (∀ (db : DB) (enabled : Bool) (now : Int),
        getMaintenanceModeMessage (setMaintenanceMode db enabled none now) =
          getMaintenanceModeMessage db) ∧
    (∀ (db : DB) (enabled : Bool) (m : String) (now : Int),
        getMaintenanceModeMessage (setMaintenanceMode db enabled (some m) now) = some m) ∧
    getMaintenanceModeMessage
      (setMaintenanceMode (setMaintenanceMode DB.empty true (some "msg") 1) false none 2) =
      some "msg" := by
  refine ⟨?_, ?_, ?_, by decide⟩
  · intro db enabled message now
    unfold setMaintenanceMode
    cases message with
    | none => exact updateSiteSetting_get db _ _ now
    | some m =>
        obtain ⟨s, hs, hv⟩ :=
          updateSiteSetting_get db "maintenance_mode_enabled" (some (boolString enabled)) now
        refine ⟨s, ?_, hv⟩
        rw [updateSiteSetting_frame _ _ _ _ _ (by decide)]
        exact hs
  · intro db enabled now
    unfold setMaintenanceMode getMaintenanceModeMessage
    rw [updateSiteSetting_frame _ _ _ _ _ (by decide)]
  · intro db enabled m now
    unfold setMaintenanceMode getMaintenanceModeMessage
    obtain ⟨s, hs, hv⟩ := updateSiteSetting_get
      (updateSiteSetting db
        { key := "maintenance_mode_enabled", value := some (boolString enabled) } now).1
      "maintenance_mode_message" (some m) now
    simp only [hs]
    exact hv

theorem worstLoop_le (l : List ComponentStatus) (w : ComponentStatus) :
    statusPriority w ≤ statusPriority (worstLoop l (statusPriority w) w) ∧
    ∀ s ∈ l, statusPriority s ≤ statusPriority (worstLoop l (statusPriority w) w) := by
  induction l generalizing w with
  | nil => exact ⟨le_refl _, by simp⟩
  | cons s rest ih =>
      by_cases h : statusPriority w < statusPriority s
      · have hstep : worstLoop (s :: rest) (statusPriority w) w =
            worstLoop rest (statusPriority s) s := by
          simp [worstLoop, h]
        obtain ⟨h1, h2⟩ := ih s
        rw [hstep]
        refine ⟨le_trans (le_of_lt h) h1, ?_⟩
        intro x hx
        rcases List.mem_cons.mp hx with rfl | hx
        · exact h1
        · exact h2 x hx
      · have hstep : worstLoop (s :: rest) (statusPriority w) w =
            worstLoop rest (statusPriority w) w := by
          simp [worstLoop, h]
        obtain ⟨h1, h2⟩ := ih w
        rw [hstep]
        refine ⟨h1, ?_⟩
        intro x hx
        rcases List.mem_cons.mp hx with rfl | hx
        · exact le_trans (le_of_not_lt h) h1
        · exact h2 x hx

theorem worstLoop_mem (l : List ComponentStatus) (ms : Nat) (w : ComponentStatus) :
    worstLoop l ms w = w ∨ worstLoop l ms w ∈ l := by
  induction l generalizing ms w with
  | nil => exact Or.inl rfl
  | cons s rest ih =>
      by_cases h : ms < statusPriority s
      · have hstep : worstLoop (s :: rest) ms w = worstLoop rest (statusPriority s) s := by
          simp [worstLoop, h]
        rw [hstep]
        rcases ih (statusPriority s) s with h1 | h1
        · exact Or.inr (by rw [h1]; exact List.mem_cons_self _ _)
        · exact Or.inr (List.mem_cons_of_mem _ h1)
      · have hstep : worstLoop (s :: rest) ms w = worstLoop rest ms w := by
          simp [worstLoop, h]
        rw [hstep]
        rcases ih ms w with h1 | h1
        · exact Or.inl h1
        · exact Or.inr (List.mem_cons_of_mem _ h1)

theorem statusPriority_eq_zero (s : ComponentStatus) :
    statusPriority s = 0 ↔ s = ComponentStatus.operational := by
  cases s <;> simp [statusPriority]

/-- C1 (amended): `getOverallStatus` returns `operational` for an empty
component table and otherwise the most severe status present under the order
operational < under_maintenance < degraded < partial_outage < major_outage;
the `overall_status` field computed by `getPublicStatus` does NOT satisfy this
contract in general (see the counterexample), because its upgrade chain only
promotes from `operational`. -/
theorem overall_status_most_severe (db : DB) :
    (db.components = [] → getOverallStatus db = ComponentStatus.operational) ∧
    (db.components ≠ [] →
      getOverallStatus db ∈ db.components.map (fun c => c.status) ∧
      ∀ s ∈ db.components.map (fun c => c.status),
        statusPriority s ≤ statusPriority (getOverallStatus db)) := by
  constructor
  · intro h
    unfold getOverallStatus
    rw [if_pos (by simp [h])]
  · intro h
    have hne : db.components.isEmpty ≠ true := by
      simpa [List.isEmpty_iff] using h
    have hloop : getOverallStatus db =
        worstLoop (db.components.map (fun c => c.status)) 0 ComponentStatus.operational := by
      unfold getOverallStatus
      rw [if_neg hne]
    have hle := worstLoop_le (db.components.map (fun c => c.status)) ComponentStatus.operational
    have hmem := worstLoop_mem (db.components.map (fun c => c.status)) 0
      ComponentStatus.operational
    rw [hloop]
    have hpr : statusPriority ComponentStatus.operational = 0 := rfl
    constructor
    · rcases hmem with h1 | h1
      · rw [h1]
        obtain ⟨c, hc⟩ := List.exists_mem_of_ne_nil db.components h
        have hcs : statusPriority c.status ≤ statusPriority
            (worstLoop (db.components.map (fun c => c.status)) 0 ComponentStatus.operational) :=
          hle.2 c.status (List.mem_map.mpr ⟨c, hc, rfl⟩)
        rw [h1] at hcs
        have hz : c.status = ComponentStatus.operational :=
          (statusPriority_eq_zero c.status).mp (Nat.le_zero.mp hcs)
        exact List.mem_map.mpr ⟨c, hc, hz⟩
      · exact h1
    · intro s hs
      exact hle.2 s hs

/-- A store with one group containing an `under_maintenance` component followed
by a `degraded` one. -/
def mixDB : DB :=
  { DB.empty with
    componentGroups := [sampleGroup 1 0]
    components := [sampleComponent 2 1 0 .under_maintenance, sampleComponent 3 1 1 .degraded]
    nextId := 4 }

/-- C1 counterexample: on a store holding an `under_maintenance` and a
`degraded` component, `getOverallStatus` returns the most severe status
(`degraded`), but `getPublicStatus` computes `overall_status =
under_maintenance`, so the two disagree and the public figure is not the most
severe status present. -/
theorem public_overall_status_not_most_severe :
    ComponentStatus.degraded ∈ mixDB.components.map (fun c => c.status) ∧
    (∀ s ∈ mixDB.components.map (fun c => c.status),
      statusPriority s ≤ statusPriority ComponentStatus.degraded) ∧
    getOverallStatus mixDB = ComponentStatus.degraded ∧
    (getPublicStatus mixDB).overall_status = ComponentStatus.under_maintenance := by decide

/-- Witness for `overall_status_most_severe` at a concrete store. -/
theorem overall_status_most_severe_witness :
    getOverallStatus mixDB ∈ mixDB.components.map (fun c => c.status) ∧
    ∀ s ∈ mixDB.components.map (fun c => c.status),
      statusPriority s ≤ statusPriority (getOverallStatus mixDB) :=
  (overall_status_most_severe mixDB).2 (by decide)

theorem groupRows_id_mem (rows : List (ComponentGroup × Option Component))
    (acc : List GroupWithComponents) (gid : Nat) :
    (∃ gw ∈ groupRows rows acc, gw.id = gid) ↔
      (∃ gw ∈ acc, gw.id = gid) ∨ (∃ r ∈ rows, r.1.id = gid) := by
  induction rows generalizing acc with
  | nil => simp [groupRows]
  | cons row rest ih =>
      obtain ⟨g, c⟩ := row
      by_cases h : (acc.any (fun gw => gw.id == g.id)) = true
      · have hstep : groupRows ((g, c) :: rest) acc = groupRows rest
            (acc.map (fun gw => if gw.id == g.id then
              { gw with components := gw.components ++ c.toList } else gw)) := by
          simp [groupRows, h]
        have hmap : (∃ gw ∈ acc.map (fun gw => if gw.id == g.id then
            { gw with components := gw.components ++ c.toList } else gw), gw.id = gid) ↔
            (∃ gw ∈ acc, gw.id = gid) := by
          constructor
          · rintro ⟨gw, hgw, hid⟩
            obtain ⟨x, hx, hfx⟩ := List.mem_map.mp hgw
            refine ⟨x, hx, ?_⟩
            rw [← hid, ← hfx]
            split <;> rfl
          · rintro ⟨x, hx, hid⟩
            refine ⟨if x.id == g.id then
              { x with components := x.components ++ c.toList } else x,
              List.mem_map.mpr ⟨x, hx, rfl⟩, ?_⟩
            split <;> exact hid
        have hgacc : g.id = gid → (∃ gw ∈ acc, gw.id = gid) := by
          intro hg
          obtain ⟨gw, hgw, hid⟩ := List.any_eq_true.mp h
          exact ⟨gw, hgw, by rw [← hg]; simpa using hid⟩
        rw [hstep, ih, hmap]
        constructor
        · rintro (hA | ⟨r, hr, hid⟩)
          · exact Or.inl hA
          · exact Or.inr ⟨r, List.mem_cons_of_mem _ hr, hid⟩
        · rintro (hA | ⟨r, hr, hid⟩)
          · exact Or.inl hA
          · rcases List.mem_cons.mp hr with rfl | hr2
            · exact Or.inl (hgacc hid)
            · exact Or.inr ⟨r, hr2, hid⟩
      · have hstep : groupRows ((g, c) :: rest) acc = groupRows rest
            (acc ++ [mkGroupWith g c.toList]) := by
          simp [groupRows, h]
        rw [hstep, ih]
        constructor
        · rintro (⟨gw, hgw, hid⟩ | ⟨r, hr, hid⟩)
          · rcases List.mem_append.mp hgw with hgw2 | hgw2
            · exact Or.inl ⟨gw, hgw2, hid⟩
            · have heq : gw = mkGroupWith g c.toList := by simpa using hgw2
              rw [heq] at hid
              exact Or.inr ⟨(g, c), List.mem_cons_self _ _, hid⟩
          · exact Or.inr ⟨r, List.mem_cons_of_mem _ hr, hid⟩
        · rintro (⟨gw, hgw, hid⟩ | ⟨r, hr, hid⟩)
          · exact Or.inl ⟨gw, List.mem_append_left _ hgw, hid⟩
          · rcases List.mem_cons.mp hr with rfl | hr2
            · exact Or.inl ⟨mkGroupWith g c.toList,
                List.mem_append_right _ (List.mem_singleton.mpr rfl), hid⟩
            · exact Or.inr ⟨r, hr2, hid⟩

theorem mem_publicJoinRows (db : DB) (r : ComponentGroup × Component) :
    r ∈ publicJoinRows db ↔
      r.1 ∈ db.componentGroups ∧ r.2 ∈ db.components ∧ r.2.group_id = r.1.id := by
  unfold publicJoinRows
  rw [mem_sortLe, List.mem_flatten]
  constructor
  · rintro ⟨l, hl, hr⟩
    obtain ⟨g, hg, hgen⟩ := List.mem_map.mp hl
    rw [← hgen] at hr
    obtain ⟨c, hc, hrc⟩ := List.mem_map.mp hr
    have hcf := List.mem_filter.mp hc
    rw [← hrc]
    exact ⟨hg, hcf.1, by simpa using hcf.2⟩
  · rintro ⟨h1, h2, h3⟩
    refine ⟨(db.components.filter (fun c => c.group_id == r.1.id)).map (fun c => (r.1, c)),
      List.mem_map.mpr ⟨r.1, h1, rfl⟩, ?_⟩
    exact List.mem_map.mpr ⟨r.2, List.mem_filter.mpr ⟨h2, by simpa using h3⟩, rfl⟩

theorem leftJoinRows_cover (db : DB) (g : ComponentGroup) (hg : g ∈ db.componentGroups) :
    ∃ r ∈ leftJoinRows db, r.1 = g := by
  cases hcs : db.components.filter (fun c => c.group_id == g.id) with
  | nil =>
      refine ⟨(g, none), ?_, rfl⟩
      unfold leftJoinRows
      rw [mem_sortLe, List.mem_flatten]
      refine ⟨groupLeftRows db g, List.mem_map.mpr ⟨g, hg, rfl⟩, ?_⟩
      unfold groupLeftRows
      rw [hcs]
      simp
  | cons c t =>
      refine ⟨(g, some c), ?_, rfl⟩
      unfold leftJoinRows
      rw [mem_sortLe, List.mem_flatten]
      refine ⟨groupLeftRows db g, List.mem_map.mpr ⟨g, hg, rfl⟩, ?_⟩
      unfold groupLeftRows
      rw [hcs]
      rw [if_neg (by simp)]
      exact List.mem_map.mpr ⟨c, List.mem_cons_self _ _, rfl⟩

theorem leftJoinRows_none (db : DB) (gid : Nat)
    (h : ∀ c ∈ db.components, c.group_id ≠ gid) :
    ∀ r ∈ leftJoinRows db, r.1.id = gid → r.2 = none := by
  intro r hr hid
  unfold leftJoinRows at hr
  rw [mem_sortLe, List.mem_flatten] at hr
  obtain ⟨l, hl, hrl⟩ := hr
  obtain ⟨g, _, hgen⟩ := List.mem_map.mp hl
  rw [← hgen] at hrl
  unfold groupLeftRows at hrl
  split at hrl
  · have heq : r = (g, none) := by simpa using hrl
    rw [heq]
  · obtain ⟨c, hc, hrc⟩ := List.mem_map.mp hrl
    have hcf := List.mem_filter.mp hc
    have hcg : c.group_id = g.id := by simpa using hcf.2
    rw [← hrc] at hid
    exact absurd (hcg.trans hid) (h c hcf.1)

theorem groupRows_components_empty (rows : List (ComponentGroup × Option Component))
    (acc : List GroupWithComponents) (gid : Nat)
    (hrows : ∀ r ∈ rows, r.1.id = gid → r.2 = none)
    (hacc : ∀ gw ∈ acc, gw.id = gid → gw.components = []) :
    ∀ gw ∈ groupRows rows acc, gw.id = gid → gw.components = [] := by
  induction rows generalizing acc with
  | nil => simpa [groupRows] using hacc
  | cons row rest ih =>
      obtain ⟨g, c⟩ := row
      have hrest : ∀ r ∈ rest, r.1.id = gid → r.2 = none :=
        fun r hr => hrows r (List.mem_cons_of_mem _ hr)
      by_cases h : (acc.any (fun gw => gw.id == g.id)) = true
      · have hstep : groupRows ((g, c) :: rest) acc = groupRows rest
            (acc.map (fun gw => if gw.id == g.id then
              { gw with components := gw.components ++ c.toList } else gw)) := by
          simp [groupRows, h]
        rw [hstep]
        apply ih _ hrest
        intro gw hgw hid
        obtain ⟨x, hx, hfx⟩ := List.mem_map.mp hgw
        rw [← hfx] at hid ⊢
        by_cases hxg : (x.id == g.id) = true
        · rw [if_pos hxg] at hid ⊢
          have hxid : x.id = gid := hid
          have hxe : x.components = [] := hacc x hx hxid
          have hgid : g.id = gid := by
            have hxgid : x.id = g.id := by simpa using hxg
            rw [← hxgid]
            exact hxid
          have hc : c = none := hrows (g, c) (List.mem_cons_self _ _) hgid
          show x.components ++ c.toList = []
          rw [hxe, hc]
          rfl
        · rw [if_neg hxg] at hid ⊢
          exact hacc x hx hid
      · have hstep : groupRows ((g, c) :: rest) acc = groupRows rest
            (acc ++ [mkGroupWith g c.toList]) := by
          simp [groupRows, h]
        rw [hstep]
        apply ih _ hrest
        intro gw hgw hid
        rcases List.mem_append.mp hgw with hgw2 | hgw2
        · exact hacc gw hgw2 hid
        · have heq : gw = mkGroupWith g c.toList := by simpa using hgw2
          rw [heq] at hid ⊢
          have hc : c = none := hrows (g, c) (List.mem_cons_self _ _) hid
          show c.toList = []
          rw [hc]
          rfl

/-- C10: the `component_groups` list of `getPublicStatus` contains a group id
exactly when that id belongs to a stored group owning at least one component
(empty groups are absent from the public page), whereas `getComponentGroups`
covers every stored group, representing a group with no components as an entry
with an empty components list. -/
theorem public_status_groups_spec (db : DB) :
    (∀ gid : Nat,
      (∃ gw ∈ (getPublicStatus db).component_groups, gw.id = gid) ↔
        (∃ g ∈ db.componentGroups, g.id = gid) ∧ (∃ c ∈ db.components, c.group_id = gid)) ∧
    (∀ g ∈ db.componentGroups, ∃ gw ∈ getComponentGroups db, gw.id = g.id) ∧
    (∀ g ∈ db.componentGroups, (∀ c ∈ db.components, c.group_id ≠ g.id) →
      ∃ gw ∈ getComponentGroups db, gw.id = g.id ∧ gw.components = []) := by
  refine ⟨?_, ?_, ?_⟩
  · intro gid
    have hcg : (getPublicStatus db).component_groups = publicComponentGroups db := rfl
    rw [hcg]
    unfold publicComponentGroups
    rw [groupRows_id_mem]
    simp only [List.not_mem_nil, false_and, exists_false, false_or]
    constructor
    · rintro ⟨r2, hr2, hid⟩
      obtain ⟨r, hr, hrr⟩ := List.mem_map.mp hr2
      obtain ⟨hg, hc, hcg2⟩ := (mem_publicJoinRows db r).mp hr
      rw [← hrr] at hid
      exact ⟨⟨r.1, hg, hid⟩, ⟨r.2, hc, hcg2.trans hid⟩⟩
    · rintro ⟨⟨g, hg, hgid⟩, ⟨c, hc, hcg2⟩⟩
      refine ⟨(g, some c), List.mem_map.mpr ⟨(g, c), ?_, rfl⟩, hgid⟩
      exact (mem_publicJoinRows db (g, c)).mpr ⟨hg, hc, hcg2.trans hgid.symm⟩
  · intro g hg
    obtain ⟨r, hr, hr1⟩ := leftJoinRows_cover db g hg
    unfold getComponentGroups
    rw [groupRows_id_mem]
    refine Or.inr ⟨r, hr, ?_⟩
    rw [hr1]
  · intro g hg h
    obtain ⟨r, hr, hr1⟩ := leftJoinRows_cover db g hg
    have hex : ∃ gw ∈ getComponentGroups db, gw.id = g.id := by
      unfold getComponentGroups
      rw [groupRows_id_mem]
      exact Or.inr ⟨r, hr, by rw [hr1]⟩
    obtain ⟨gw, hgw, hid⟩ := hex
    refine ⟨gw, hgw, hid, ?_⟩
    have hempty := groupRows_components_empty (leftJoinRows db) [] g.id
      (leftJoinRows_none db g.id h) (by simp)
    exact hempty gw hgw hid

/-- Witness for `public_status_groups_spec` at a concrete store: group 2 of
`twoGroupsDB` owns no component and is listed with an empty components list. -/
theorem public_status_groups_spec_witness :
    ∃ gw ∈ getComponentGroups twoGroupsDB, gw.id = (sampleGroup 2 1).id ∧
      gw.components = [] :=
  (public_status_groups_spec twoGroupsDB).2.2 (sampleGroup 2 1) (by decide) (by decide)

end ClarityStatus
